import Mathlib

/-!
Verification of the insurance-policy approval workflow.

The embedding covers the business-logic module `src/services/policyService.ts`
together with the database schema and row-level-security (RLS) policies of the
migration shipped with the repository, and the guard logic of the
`PolicyDetail` component.  The service functions issue single statements
against the database; each statement is modelled as a pure function from a
database state to a result plus a successor state.  A statement that the
database refuses (RLS violation, check-constraint violation, or the PostgREST
"single object" requirement failing) raises an error and leaves the state
unchanged (PostgREST rolls the transaction back in those cases).  The service
functions themselves are not transactional across statements: a failure of a
later statement keeps the effect of an earlier one, exactly as in the code.

Modelling conventions:
  * uuids are modelled as naturals; `Math.random` and the fraud coin flip are
    modelled as an explicit boolean argument; `numeric(10,2)` premium amounts
    are modelled as rationals (the precision bound is not relevant to any
    claim); timestamps, console notifications and e-mail fields are dropped
    as they carry no workflow state.
  * Per PostgreSQL, all applicable permissive policies of a command are
    combined with OR: a row may be updated when some policy's USING clause
    accepts it, and the new row is allowed when some policy's WITH CHECK
    clause accepts it (the two need not come from the same policy).
  * The SELECT visibility condition of the `policies` table (the actor has a
    profile row) is applied in `getPolicy`; for rows returned by
    UPDATE/INSERT ... RETURNING it is implied by the USING/CHECK conditions,
    which all require a profile, and is therefore not re-checked.
-/

inductive PolicyStatus where
  | draft
  | pending_underwriter
  | pending_manager
  | approved
  | rejected
deriving DecidableEq

inductive UserRole where
  | creator
  | underwriter
  | manager
deriving DecidableEq

inductive ApprovalAction where
  | submitted
  | approved
  | rejected
deriving DecidableEq

/-- The TypeScript parameter type of processApproval: 'approved' | 'rejected'. -/
inductive Decision where
  | approved
  | rejected
deriving DecidableEq

def Decision.toAction : Decision → ApprovalAction
  | .approved => .approved
  | .rejected => .rejected

def roleString : UserRole → String
  | .creator => "creator"
  | .underwriter => "underwriter"
  | .manager => "manager"

structure UserProfile where
  id : Nat
  role : UserRole
deriving DecidableEq

structure Policy where
  id : Nat
  policy_number : String
  customer_name : String
  premium_amount : ℚ
  product_type : String
  status : PolicyStatus
  fraud_check_passed : Bool
  fraud_check_reason : String
  creator_id : Nat
deriving DecidableEq

structure ApprovalLog where
  policy_id : Nat
  approver_id : Nat
  action : ApprovalAction
  role : String
  comments : String
  previous_status : PolicyStatus
  new_status : PolicyStatus
deriving DecidableEq

structure DBState where
  user_profiles : List UserProfile
  policies : List Policy
  approval_logs : List ApprovalLog
  nextId : Nat
deriving DecidableEq

instance {e a : Type} [DecidableEq e] [DecidableEq a] : DecidableEq (Except e a) :=
  fun x y =>
  match x, y with
  | .ok u, .ok v =>
      if h : u = v then .isTrue (by rw [h]) else .isFalse (fun hc => h (Except.ok.inj hc))
  | .error u, .error v =>
      if h : u = v then .isTrue (by rw [h]) else .isFalse (fun hc => h (Except.error.inj hc))
  | .ok _, .error _ => .isFalse (fun hc => Except.noConfusion hc)
  | .error _, .ok _ => .isFalse (fun hc => Except.noConfusion hc)

def roleOf (st : DBState) (uid : Nat) : Option UserRole :=
  (st.user_profiles.find? (fun pr => pr.id == uid)).map (fun pr => pr.role)

def hasRole (st : DBState) (uid : Nat) (r : UserRole) : Bool :=
  roleOf st uid == some r

def hasProfile (st : DBState) (uid : Nat) : Bool :=
  (st.user_profiles.find? (fun pr => pr.id == uid)).isSome

/-- First row of the policies table carrying the given id. -/
def getPolicyRow (st : DBState) (pid : Nat) : Option Policy :=
  st.policies.find? (fun p => p.id == pid)

def statusOf (st : DBState) (pid : Nat) : Option PolicyStatus :=
  (getPolicyRow st pid).map Policy.status

/-- USING side of the three permissive UPDATE policies on table `policies`
    (creators on own drafts; underwriters on pending_underwriter rows;
    managers on pending_manager rows), combined with OR. -/
def policiesUpdateUsing (st : DBState) (actor : Nat) (row : Policy) : Bool :=
  (row.creator_id == actor && row.status == .draft && hasRole st actor .creator)
  || (row.status == .pending_underwriter && hasRole st actor .underwriter)
  || (row.status == .pending_manager && hasRole st actor .manager)

/-- WITH CHECK side of the same three policies, combined with OR, as
    PostgreSQL does for permissive policies.  Note the second and third
    clauses constrain only the new row's status. -/
def policiesUpdateCheck (actor : Nat) (row : Policy) : Bool :=
  (row.creator_id == actor && row.status == .draft)
  || (row.status == .pending_manager || row.status == .rejected)
  || (row.status == .approved || row.status == .rejected)

/-- WITH CHECK of the INSERT policy on `policies`. -/
def policiesInsertCheck (st : DBState) (actor : Nat) (row : Policy) : Bool :=
  row.creator_id == actor && hasRole st actor .creator

/-- WITH CHECK of the INSERT policy on `approval_logs`. -/
def approvalLogsInsertCheck (actor : Nat) (e : ApprovalLog) : Bool :=
  e.approver_id == actor

/-- Table check constraint on `policies`: premium_amount > 0.  The status
    enumeration constraint is enforced by the `PolicyStatus` type itself. -/
def policyRowConstraint (row : Policy) : Bool :=
  decide (0 < row.premium_amount)

inductive DbError where
  | rlsViolation
  | checkViolation
  | noSingleRow
deriving DecidableEq

def DbError.message : DbError → String
  | .rlsViolation => "new row violates row-level security policy"
  | .checkViolation => "new row violates check constraint"
  | .noSingleRow => "JSON object requested, multiple (or no) rows returned"

/-- One `update(...).eq('id', pid).select().single()` statement on the
    policies table.  Rows are updatable when they match the id filter and the
    OR of the USING clauses; every new row must pass the OR of the WITH CHECK
    clauses and the table constraints, otherwise the statement errors; the
    single-object response requirement errors (and rolls back) unless exactly
    one row was updated. -/
def dbUpdatePolicies (st : DBState) (actor : Nat) (pid : Nat) (f : Policy → Policy) :
    Except DbError (Policy × DBState) :=
  if (st.policies.filter (fun p => p.id == pid && policiesUpdateUsing st actor p)).any
      (fun p => !(policiesUpdateCheck actor (f p))) then
    .error .rlsViolation
  else if (st.policies.filter (fun p => p.id == pid && policiesUpdateUsing st actor p)).any
      (fun p => !(policyRowConstraint (f p))) then
    .error .checkViolation
  else
    match st.policies.filter (fun p => p.id == pid && policiesUpdateUsing st actor p) with
    | [p] =>
        .ok (f p,
          { st with policies :=
              st.policies.map (fun q =>
                if q.id == pid && policiesUpdateUsing st actor q then f q else q) })
    | _ => .error .noSingleRow

/-- One `insert(...)` statement on the policies table. -/
def dbInsertPolicy (st : DBState) (actor : Nat) (row : Policy) :
    Except DbError DBState :=
  if !(policiesInsertCheck st actor row) then .error .rlsViolation
  else if !(policyRowConstraint row) then .error .checkViolation
  else .ok { st with policies := st.policies ++ [row], nextId := st.nextId + 1 }

/-- One `insert(...)` statement on the approval_logs table. -/
def dbInsertApprovalLog (st : DBState) (actor : Nat) (e : ApprovalLog) :
    Except DbError DBState :=
  if !(approvalLogsInsertCheck actor e) then .error .rlsViolation
  else .ok { st with approval_logs := st.approval_logs ++ [e] }

/-- The name heuristic of performFraudCheck: fewer than 3 characters, or the
    digits-only pattern (which requires at least one character). -/
def nameFlagged (customer_name : String) : Bool :=
  decide (customer_name.length < 3)
  || (decide (0 < customer_name.length) && customer_name.all Char.isDigit)

structure FraudResult where
  passed : Bool
  reason : String
deriving DecidableEq

/-- performFraudCheck from policyService.ts; the 20-percent random draw is
    passed in as the boolean randomFraudFlag. -/
def performFraudCheck (randomFraudFlag : Bool) (customer_name : String)
    (premium_amount : ℚ) : FraudResult :=
  let riskFactors1 : List String :=
    if randomFraudFlag then ["Anomalous pattern detected by AI model"] else []
  let riskScore1 : Nat := if randomFraudFlag then 50 else 0
  let riskFactors2 :=
    if decide (premium_amount > 100000) then
      riskFactors1 ++ ["Unusually high premium amount"]
    else riskFactors1
  let riskScore2 := if decide (premium_amount > 100000) then riskScore1 + 30 else riskScore1
  let riskFactors3 :=
    if nameFlagged customer_name then
      riskFactors2 ++ ["Invalid customer name format"]
    else riskFactors2
  let riskScore3 := if nameFlagged customer_name then riskScore2 + 40 else riskScore2
  let passed := decide (riskScore3 < 50)
  let reason :=
    if passed then "All fraud checks passed successfully"
    else "Fraud risk detected: " ++ String.intercalate ", " riskFactors3
         ++ " (Risk Score: " ++ toString riskScore3 ++ ")"
  { passed := passed, reason := reason }

/-- Risk score written directly as the sum the specification describes. -/
def fraudRiskScore (randomFraudFlag : Bool) (customer_name : String)
    (premium_amount : ℚ) : Nat :=
  (if randomFraudFlag then 50 else 0)
  + (if premium_amount > 100000 then 30 else 0)
  + (if nameFlagged customer_name then 40 else 0)

/-- The generate_policy_number database function: 'POL-' plus the policy
    count plus one, left padded to six digits. -/
def generatePolicyNumber (st : DBState) : String :=
  let s := toString (st.policies.length + 1)
  if s.length ≥ 6 then "POL-" ++ (s.toList.take 6).asString
  else "POL-" ++ (List.replicate (6 - s.length) '0').asString ++ s

structure NewPolicyData where
  customer_name : String
  premium_amount : ℚ
  product_type : String
  creator_id : Nat

/-- createPolicy: fraud check, policy number, then insert with status draft. -/
def createPolicy (st : DBState) (actor : Nat) (policyData : NewPolicyData)
    (randomFraudFlag : Bool) : Except String Policy × DBState :=
  let fraudCheck := performFraudCheck randomFraudFlag policyData.customer_name
      policyData.premium_amount
  let policyNumber := generatePolicyNumber st
  let row : Policy :=
    { id := st.nextId
      policy_number := policyNumber
      customer_name := policyData.customer_name
      premium_amount := policyData.premium_amount
      product_type := policyData.product_type
      status := .draft
      fraud_check_passed := fraudCheck.passed
      fraud_check_reason := fraudCheck.reason
      creator_id := policyData.creator_id }
  match dbInsertPolicy st actor row with
  | .error e => (.error e.message, st)
  | .ok st1 => (.ok row, st1)

structure PolicyUpdates where
  customer_name : Option String
  premium_amount : Option ℚ
  product_type : Option String

def applyUpdates (u : PolicyUpdates) (p : Policy) : Policy :=
  { p with
      customer_name := u.customer_name.getD p.customer_name
      premium_amount := u.premium_amount.getD p.premium_amount
      product_type := u.product_type.getD p.product_type }

/-- updatePolicy: a bare update statement; the service performs no check of
    its own, refusal comes from the database. -/
def updatePolicy (st : DBState) (actor : Nat) (policyId : Nat)
    (updates : PolicyUpdates) : Except String Policy × DBState :=
  match dbUpdatePolicies st actor policyId (applyUpdates updates) with
  | .error e => (.error e.message, st)
  | .ok (row, st1) => (.ok row, st1)

/-- getPolicy (maybeSingle): the SELECT policy shows rows only to actors that
    have a profile row. -/
def getPolicy (st : DBState) (actor : Nat) (pid : Nat) : Option Policy :=
  if hasProfile st actor then getPolicyRow st pid else none

/-- submitPolicy: fetch, set status to pending_underwriter, then log a
    submitted entry with hard-coded draft/pending_underwriter statuses. -/
def submitPolicy (st : DBState) (actor : Nat) (policyId : Nat) (creatorId : Nat) :
    Except String Policy × DBState :=
  match getPolicy st actor policyId with
  | none => (.error "Policy not found", st)
  | some _ =>
    match dbUpdatePolicies st actor policyId
        (fun p => { p with status := .pending_underwriter }) with
    | .error e => (.error e.message, st)
    | .ok (row, st1) =>
      match dbInsertApprovalLog st1 actor
          { policy_id := policyId
            approver_id := creatorId
            action := .submitted
            role := "creator"
            comments := ""
            previous_status := .draft
            new_status := .pending_underwriter } with
      | .error e => (.error e.message, st1)
      | .ok st2 => (.ok row, st2)

/-- processApproval: fetch; rejects go straight to status rejected, approvals
    are gated on (status, role argument); then update and log. -/
def processApproval (st : DBState) (actor : Nat) (policyId : Nat) (approverId : Nat)
    (action : Decision) (role : String) (comments : String) :
    Except String Policy × DBState :=
  match getPolicy st actor policyId with
  | none => (.error "Policy not found", st)
  | some policy =>
    let newStatusE : Except String PolicyStatus :=
      match action with
      | .rejected => .ok .rejected
      | .approved =>
        if policy.status == .pending_underwriter && role == "underwriter" then
          .ok .pending_manager
        else if policy.status == .pending_manager && role == "manager" then
          .ok .approved
        else .error "Invalid approval workflow state"
    match newStatusE with
    | .error msg => (.error msg, st)
    | .ok newStatus =>
      match dbUpdatePolicies st actor policyId (fun p => { p with status := newStatus }) with
      | .error e => (.error e.message, st)
      | .ok (row, st1) =>
        match dbInsertApprovalLog st1 actor
            { policy_id := policyId
              approver_id := approverId
              action := action.toAction
              role := role
              comments := comments
              previous_status := policy.status
              new_status := newStatus } with
        | .error e => (.error e.message, st1)
        | .ok st2 => (.ok row, st2)

/-- getApprovalLogs: audit entries of one policy, newest first. -/
def getApprovalLogs (st : DBState) (pid : Nat) : List ApprovalLog :=
  (st.approval_logs.filter (fun e => e.policy_id == pid)).reverse

/-- Whitespace trimming as JavaScript's String.prototype.trim performs it,
    written structurally on the character list so that concrete instances
    reduce by computation. -/
def jsTrim (s : String) : String :=
  (((s.toList.dropWhile Char.isWhitespace).reverse.dropWhile
    Char.isWhitespace).reverse).asString

/-- The PolicyDetail edit guard: creators, own policy, draft status only. -/
def canEdit (profileRole : UserRole) (profileId : Nat) (p : Policy) : Bool :=
  profileRole == .creator && p.status == .draft && p.creator_id == profileId

/-- The PolicyDetail approve handler: calls the service with the profile's
    own id and role. -/
def handleApprove (st : DBState) (profileId : Nat) (profileRole : UserRole)
    (policyId : Nat) (comments : String) : Except String Policy × DBState :=
  processApproval st profileId policyId profileId .approved (roleString profileRole) comments

/-- The PolicyDetail reject handler: refuses when the trimmed comment is
    empty, otherwise calls the service. -/
def handleReject (st : DBState) (profileId : Nat) (profileRole : UserRole)
    (policyId : Nat) (comments : String) : Except String Policy × DBState :=
  if jsTrim comments == "" then (.error "Please provide a reason for rejection", st)
  else processApproval st profileId policyId profileId .rejected (roleString profileRole) comments

/-- Every state-changing service entry point, for quantifying over
    arbitrary operation sequences. -/
inductive Op where
  | create (actor : Nat) (policyData : NewPolicyData) (randomFraudFlag : Bool)
  | update (actor policyId : Nat) (updates : PolicyUpdates)
  | submit (actor policyId creatorId : Nat)
  | approval (actor policyId approverId : Nat) (action : Decision)
      (role : String) (comments : String)

def runOp (st : DBState) : Op → DBState
  | .create a d f => (createPolicy st a d f).2
  | .update a pid u => (updatePolicy st a pid u).2
  | .submit a pid c => (submitPolicy st a pid c).2
  | .approval a pid ap d r c => (processApproval st a pid ap d r c).2

/-! Concrete scenarios used by evaluation theorems and witnesses. -/

def pA : Policy :=
  { id := 7, policy_number := "POL-000001", customer_name := "John Doe",
    premium_amount := 500, product_type := "Auto Insurance", status := .draft,
    fraud_check_passed := true,
    fraud_check_reason := "All fraud checks passed successfully", creator_id := 1 }

def sA : DBState :=
  { user_profiles := [{ id := 1, role := .creator }], policies := [pA],
    approval_logs := [], nextId := 8 }

def pB : Policy := { pA with id := 9, creator_id := 2 }

def sB : DBState :=
  { user_profiles := [{ id := 2, role := .creator }], policies := [pB],
    approval_logs := [], nextId := 10 }

def pE : Policy := { pA with id := 11, creator_id := 3 }

def sE : DBState :=
  { user_profiles := [{ id := 3, role := .creator }], policies := [pE],
    approval_logs := [], nextId := 12 }

def sC : DBState :=
  { user_profiles := [{ id := 1, role := .creator }, { id := 5, role := .underwriter }],
    policies := [], approval_logs := [], nextId := 0 }

def pD : Policy :=
  { pA with id := 12, status := .pending_underwriter, creator_id := 2, premium_amount := 300 }

def sD : DBState :=
  { user_profiles := [{ id := 4, role := .underwriter }], policies := [pD],
    approval_logs := [], nextId := 0 }

def pF : Policy := { pA with id := 13, status := .pending_underwriter, creator_id := 6 }

def sF : DBState :=
  { user_profiles := [{ id := 6, role := .creator }], policies := [pF],
    approval_logs := [], nextId := 0 }

/-! Helper lemmas about lists of policies with pairwise distinct ids. -/

theorem policy_id_unique {l : List Policy} (hnd : (l.map Policy.id).Nodup)
    {p q : Policy} (hp : p ∈ l) (hq : q ∈ l) (h : p.id = q.id) : p = q :=
  List.inj_on_of_nodup_map hnd hp hq h

theorem find_id_of_mem {l : List Policy} (hnd : (l.map Policy.id).Nodup)
    {p : Policy} (hp : p ∈ l) {pid : Nat} (hid : p.id = pid) :
    l.find? (fun q => q.id == pid) = some p := by
  have hsome : (l.find? (fun q => q.id == pid)).isSome :=
    List.find?_isSome.mpr ⟨p, hp, by simp [hid]⟩
  obtain ⟨q, hq⟩ := Option.isSome_iff_exists.mp hsome
  have hqid : q.id = pid := by simpa using List.find?_some hq
  have hqmem := List.mem_of_find?_eq_some hq
  rw [hq, policy_id_unique hnd hqmem hp (by rw [hqid, hid])]

theorem filter_id_of_find {l : List Policy} {pid : Nat} {p : Policy}
    (hnd : (l.map Policy.id).Nodup) (hf : l.find? (fun q => q.id == pid) = some p)
    (U : Policy → Bool) :
    l.filter (fun q => q.id == pid && U q) = if U p then [p] else [] := by
  induction l with
  | nil => simp [List.find?] at hf
  | cons a rest ih =>
    rw [List.map_cons, List.nodup_cons] at hnd
    by_cases ha : a.id = pid
    · have hb : (a.id == pid) = true := beq_iff_eq.mpr ha
      have hap : p = a := by
        simp only [List.find?_cons, hb] at hf
        exact (Option.some.inj hf).symm
      subst hap
      have hrest : rest.filter (fun q => q.id == pid && U q) = [] := by
        rw [List.filter_eq_nil_iff]
        intro q hq
        simp only [Bool.and_eq_true, beq_iff_eq, not_and]
        intro hqid hUq
        have hm : q.id ∈ rest.map Policy.id := List.mem_map_of_mem Policy.id hq
        rw [hqid, ← ha] at hm
        exact hnd.1 hm
      by_cases hU : U p = true
      · simp [List.filter_cons, hb, hU, hrest]
      · simp [List.filter_cons, hb, hU, hrest]
    · have hb : (a.id == pid) = false := by simp [ha]
      have hf2 : rest.find? (fun q => q.id == pid) = some p := by
        simp only [List.find?_cons, hb] at hf
        exact hf
      simpa [List.filter_cons, hb] using ih hnd.2 hf2

/-- A successful policies update leaves the other tables untouched. -/
theorem dbUpdatePolicies_ok_frame {st : DBState} {actor pid : Nat} {f : Policy → Policy}
    {row : Policy} {st1 : DBState}
    (h : dbUpdatePolicies st actor pid f = .ok (row, st1)) :
    st1.approval_logs = st.approval_logs ∧ st1.user_profiles = st.user_profiles ∧
      st1.nextId = st.nextId := by
  unfold dbUpdatePolicies at h
  split at h
  · exact absurd h (by simp)
  · split at h
    · exact absurd h (by simp)
    · split at h
      · simp only [Except.ok.injEq, Prod.mk.injEq] at h
        obtain ⟨-, hst⟩ := h
        rw [← hst]
        exact ⟨rfl, rfl, rfl⟩
      · exact absurd h (by simp)

/-- Characterisation of a successful policies update, for id-preserving row
    functions over a table with distinct ids. -/
theorem dbUpdatePolicies_ok_inv {st : DBState} {actor pid : Nat} {f : Policy → Policy}
    {row : Policy} {st1 : DBState}
    (hnd : (st.policies.map Policy.id).Nodup)
    (h : dbUpdatePolicies st actor pid f = .ok (row, st1))
    (hfid : ∀ q, (f q).id = q.id) :
    ∃ p, getPolicyRow st pid = some p ∧ row = f p ∧
      getPolicyRow st1 pid = some (f p) := by
  unfold dbUpdatePolicies at h
  split at h
  · exact absurd h (by simp)
  · split at h
    · exact absurd h (by simp)
    · split at h
      · rename_i p heq
        simp only [Except.ok.injEq, Prod.mk.injEq] at h
        obtain ⟨hrow, hst⟩ := h
        have hmem0 : p ∈ st.policies.filter
            (fun q => q.id == pid && policiesUpdateUsing st actor q) := by
          rw [heq]; exact List.mem_singleton_self p
        obtain ⟨hmem, hpred⟩ := List.mem_filter.mp hmem0
        rw [Bool.and_eq_true, beq_iff_eq] at hpred
        obtain ⟨hpid, hU⟩ := hpred
        refine ⟨p, find_id_of_mem hnd hmem hpid, hrow.symm, ?_⟩
        have hgid : ∀ q : Policy,
            (if q.id == pid && policiesUpdateUsing st actor q then f q else q).id = q.id := by
          intro q
          by_cases hq : (q.id == pid && policiesUpdateUsing st actor q) = true
          · simp [hq, hfid]
          · simp [hq]
        have hmapid :
            ((st.policies.map (fun q =>
              if q.id == pid && policiesUpdateUsing st actor q then f q else q)).map
                Policy.id) = st.policies.map Policy.id := by
          rw [List.map_map]
          exact List.map_congr_left (fun a _ => hgid a)
        have hnd1 : ((st.policies.map (fun q =>
            if q.id == pid && policiesUpdateUsing st actor q then f q else q)).map
              Policy.id).Nodup := by rw [hmapid]; exact hnd
        have hmem1 : (if p.id == pid && policiesUpdateUsing st actor p then f p else p)
            ∈ st.policies.map (fun q =>
              if q.id == pid && policiesUpdateUsing st actor q then f q else q) :=
          List.mem_map_of_mem _ hmem
        rw [if_pos (by simp [hpid, hU])] at hmem1
        have hfind := find_id_of_mem hnd1 hmem1 (by rw [hfid p, hpid])
        rw [← hst]
        exact hfind
      · exact absurd h (by simp)

/-- Construction of a successful policies update. -/
theorem dbUpdatePolicies_ok_of {st : DBState} {actor pid : Nat} {f : Policy → Policy}
    {p : Policy} (hnd : (st.policies.map Policy.id).Nodup)
    (hf : getPolicyRow st pid = some p)
    (hU : policiesUpdateUsing st actor p = true)
    (hC : policiesUpdateCheck actor (f p) = true)
    (hK : policyRowConstraint (f p) = true) :
    dbUpdatePolicies st actor pid f =
      .ok (f p,
        { st with
            policies := st.policies.map (fun q =>
              if q.id == pid && policiesUpdateUsing st actor q then f q else q) }) := by
  have htouch : st.policies.filter (fun q => q.id == pid && policiesUpdateUsing st actor q)
      = [p] := by
    rw [filter_id_of_find hnd hf (policiesUpdateUsing st actor), if_pos hU]
  unfold dbUpdatePolicies
  rw [htouch]
  simp [hC, hK]

/-- No WITH CHECK clause of the policies table accepts a new row whose status
    is pending_underwriter, so the update issued by submitPolicy can never
    succeed: either no row is updatable, or the new row is refused. -/
theorem dbUpdate_to_pending_underwriter_error (st : DBState) (actor pid : Nat) :
    ∃ e, dbUpdatePolicies st actor pid
      (fun p => { p with status := .pending_underwriter }) = .error e := by
  unfold dbUpdatePolicies
  cases htouch : st.policies.filter
      (fun p => p.id == pid && policiesUpdateUsing st actor p) with
  | nil => exact ⟨.noSingleRow, by simp⟩
  | cons a as => exact ⟨.rlsViolation, by simp [policiesUpdateCheck]⟩

theorem submitPolicy_never_ok (st : DBState) (actor policyId creatorId : Nat)
    (row : Policy) (st2 : DBState) :
    submitPolicy st actor policyId creatorId ≠ (.ok row, st2) := by
  unfold submitPolicy
  cases hg : getPolicy st actor policyId with
  | none => simp
  | some p =>
    obtain ⟨e, he⟩ := dbUpdate_to_pending_underwriter_error st actor policyId
    rw [he]
    simp

/-- C1: evaluation at the failing input.  The triple (draft, creator, reject)
    is not listed in the transition table, so the claim says processApproval
    must fail and leave the status unchanged.  Instead, when the caller is the
    draft policy's own creator, the reject succeeds and moves the draft
    straight to rejected: the creator policy's USING clause makes the row
    updatable, and the OR-combined WITH CHECK clauses of the underwriter and
    manager policies accept any new row whose status is rejected. -/
theorem c1_creator_reject_draft_eval :
    statusOf sA 7 = some PolicyStatus.draft ∧
    pA.creator_id = 1 ∧
    roleOf sA 1 = some UserRole.creator ∧
    (processApproval sA 1 7 1 .rejected "creator" "no longer needed").1.isOk = true ∧
    statusOf (processApproval sA 1 7 1 .rejected "creator" "no longer needed").2 7
      = some PolicyStatus.rejected := by
  decide

/-- C2: evaluation at the failing input.  The invariant says rejected is
    reachable only from the two pending states, yet a single processApproval
    operation run by the creator of a draft policy moves its status directly
    from draft to rejected. -/
theorem c2_draft_to_rejected_eval :
    statusOf sB 9 = some PolicyStatus.draft ∧
    statusOf (runOp sB (.approval 2 9 2 .rejected "creator" "entered by mistake")) 9
      = some PolicyStatus.rejected := by
  decide

/-- C5: evaluation at the failing input.  The table's first row says that
    submitPolicy on a draft policy run by its creator yields
    pending_underwriter; instead the update is refused by row-level security
    (no WITH CHECK clause accepts a new row in status pending_underwriter) and
    the state is unchanged. -/
theorem c5_submit_blocked_eval :
    statusOf sE 11 = some PolicyStatus.draft ∧
    pE.creator_id = 3 ∧
    roleOf sE 3 = some UserRole.creator ∧
    submitPolicy sE 3 11 3 = (.error DbError.rlsViolation.message, sE) := by
  decide

/-- C6: performFraudCheck computes the risk score 50 * random flag +
    30 * premium threshold + 40 * name heuristic and passes exactly when the
    score is below 50, that is, when the random flag is unset and the two
    deterministic checks are not both triggered. -/
theorem c6_fraud_check_score (flag : Bool) (nm : String) (amt : ℚ) :
    (performFraudCheck flag nm amt).passed
      = decide (fraudRiskScore flag nm amt < 50)
    ∧ ((performFraudCheck flag nm amt).passed = true ↔
        flag = false ∧ ¬(amt > 100000 ∧ nameFlagged nm = true)) := by
  unfold performFraudCheck fraudRiskScore
  cases flag <;> by_cases h1 : amt > 100000 <;> by_cases h2 : nameFlagged nm = true <;>
    simp [h1, h2]

/-- C8: a policy that is not in draft status cannot be edited by its creator.
    The PolicyDetail edit guard is off, and the update statement matches no
    row (no USING clause of the policies table accepts the row for an actor
    whose profile role is creator unless the row is their own draft), so
    updatePolicy raises the PostgREST single-object error and the state, in
    particular the policy's customer_name, premium_amount and product_type,
    is unchanged. -/
theorem c8_update_nondraft_refused (st : DBState) (actor pid : Nat)
    (upd : PolicyUpdates) (p : Policy)
    (hnd : (st.policies.map Policy.id).Nodup)
    (hf : getPolicyRow st pid = some p)
    (_hcr : p.creator_id = actor)
    (hrole : roleOf st actor = some UserRole.creator)
    (hst : p.status ≠ PolicyStatus.draft) :
    canEdit UserRole.creator actor p = false ∧
    updatePolicy st actor pid upd = (.error DbError.noSingleRow.message, st) := by
  have hUp : policiesUpdateUsing st actor p = false := by
    unfold policiesUpdateUsing hasRole
    rw [hrole]
    simp [hst]
  have htouch : st.policies.filter
      (fun q => q.id == pid && policiesUpdateUsing st actor q) = [] := by
    rw [filter_id_of_find hnd hf (policiesUpdateUsing st actor), if_neg (by simp [hUp])]
  constructor
  · unfold canEdit
    simp [hst]
  · unfold updatePolicy dbUpdatePolicies
    rw [htouch]
    simp

theorem c8_update_nondraft_refused_witness :
    canEdit UserRole.creator 6 pF = false ∧
    updatePolicy sF 6 13
        { customer_name := some "New Name", premium_amount := none, product_type := none }
      = (.error DbError.noSingleRow.message, sF) :=
  c8_update_nondraft_refused sF 6 13
    { customer_name := some "New Name", premium_amount := none, product_type := none }
    pF (by decide) (by decide) (by decide) (by decide) (by decide)

/-- C10: for a policy id with no row, submitPolicy and processApproval both
    fail with the Policy not found error before issuing any statement, and an
    approve in a non-matching status/role combination fails with the
    Invalid approval workflow state error before issuing any statement; in
    all three cases the returned state is exactly the input state, so no
    policy status and no audit entry changes. -/
theorem c10_error_cases (st : DBState) :
    (∀ actor pid creatorId, getPolicyRow st pid = none →
        submitPolicy st actor pid creatorId = (.error "Policy not found", st))
  ∧ (∀ actor pid approverId action role comments, getPolicyRow st pid = none →
        processApproval st actor pid approverId action role comments
          = (.error "Policy not found", st))
  ∧ (∀ actor pid approverId role comments p, hasProfile st actor = true →
        getPolicyRow st pid = some p →
        ¬(p.status = PolicyStatus.pending_underwriter ∧ role = "underwriter") →
        ¬(p.status = PolicyStatus.pending_manager ∧ role = "manager") →
        processApproval st actor pid approverId .approved role comments
          = (.error "Invalid approval workflow state", st)) := by
  refine ⟨?_, ?_, ?_⟩
  · intro actor pid creatorId hnone
    unfold submitPolicy getPolicy
    by_cases hprof : hasProfile st actor = true
    · simp [hprof, hnone]
    · simp [hprof]
  · intro actor pid approverId action role comments hnone
    unfold processApproval getPolicy
    by_cases hprof : hasProfile st actor = true
    · simp [hprof, hnone]
    · simp [hprof]
  · intro actor pid approverId role comments p hprof hp h1 h2
    have hc1 : ((p.status == PolicyStatus.pending_underwriter) && (role == "underwriter"))
        = false := by
      rw [Bool.eq_false_iff]
      intro hcontra
      rw [Bool.and_eq_true, beq_iff_eq, beq_iff_eq] at hcontra
      exact h1 hcontra
    have hc2 : ((p.status == PolicyStatus.pending_manager) && (role == "manager"))
        = false := by
      rw [Bool.eq_false_iff]
      intro hcontra
      rw [Bool.and_eq_true, beq_iff_eq, beq_iff_eq] at hcontra
      exact h2 hcontra
    unfold processApproval getPolicy
    simp [hprof, hp, hc1, hc2]

theorem c10_error_cases_witness :
    submitPolicy sD 4 99 4 = (.error "Policy not found", sD)
    ∧ processApproval sD 4 99 4 .approved "underwriter" ""
        = (.error "Policy not found", sD)
    ∧ processApproval sD 4 12 4 .approved "manager" ""
        = (.error "Invalid approval workflow state", sD) :=
  ⟨(c10_error_cases sD).1 4 99 4 (by decide),
   (c10_error_cases sD).2.1 4 99 4 .approved "underwriter" "" (by decide),
   (c10_error_cases sD).2.2 4 12 4 "manager" "" pD (by decide) (by decide)
     (by decide) (by decide)⟩

theorem dbInsertPolicy_logs {st : DBState} {actor : Nat} {row : Policy} {st1 : DBState}
    (h : dbInsertPolicy st actor row = .ok st1) :
    st1.approval_logs = st.approval_logs := by
  unfold dbInsertPolicy at h
  split at h
  · simp at h
  · split at h
    · simp at h
    · simp only [Except.ok.injEq] at h
      rw [← h]

theorem dbInsertApprovalLog_logs {st : DBState} {actor : Nat} {e : ApprovalLog}
    {st1 : DBState} (h : dbInsertApprovalLog st actor e = .ok st1) :
    st1.approval_logs = st.approval_logs ++ [e] := by
  unfold dbInsertApprovalLog at h
  split at h
  · simp at h
  · simp only [Except.ok.injEq] at h
    rw [← h]

theorem dbInsertApprovalLog_logs_ex {st : DBState} {actor : Nat} {e : ApprovalLog}
    {st1 : DBState} (h : dbInsertApprovalLog st actor e = .ok st1) :
    ∃ t, st1.approval_logs = st.approval_logs ++ t :=
  ⟨[e], dbInsertApprovalLog_logs h⟩

theorem createPolicy_logs (st : DBState) (a : Nat) (d : NewPolicyData) (flag : Bool) :
    (createPolicy st a d flag).2.approval_logs = st.approval_logs := by
  simp only [createPolicy]
  split
  · rfl
  · rename_i st1 h
    exact dbInsertPolicy_logs h

theorem updatePolicy_logs (st : DBState) (a pid : Nat) (upd : PolicyUpdates) :
    (updatePolicy st a pid upd).2.approval_logs = st.approval_logs := by
  simp only [updatePolicy]
  split
  · rfl
  · rename_i row st1 h
    exact (dbUpdatePolicies_ok_frame h).1

theorem submitPolicy_logs (st : DBState) (a pid c : Nat) :
    ∃ t, (submitPolicy st a pid c).2.approval_logs = st.approval_logs ++ t := by
  simp only [submitPolicy]
  split
  · exact ⟨[], by simp⟩
  · split
    · exact ⟨[], by simp⟩
    · rename_i row st1 h
      split
      · exact ⟨[], by simpa using (dbUpdatePolicies_ok_frame h).1⟩
      · rename_i st2 h2
        obtain ⟨t, ht⟩ := dbInsertApprovalLog_logs_ex h2
        refine ⟨t, ?_⟩
        show st2.approval_logs = st.approval_logs ++ t
        rw [ht, (dbUpdatePolicies_ok_frame h).1]

theorem processApproval_logs (st : DBState) (a pid ap : Nat) (action : Decision)
    (role comments : String) :
    ∃ t, (processApproval st a pid ap action role comments).2.approval_logs
      = st.approval_logs ++ t := by
  simp only [processApproval]
  split
  · exact ⟨[], by simp⟩
  · split
    · exact ⟨[], by simp⟩
    · split
      · exact ⟨[], by simp⟩
      · rename_i row st1 h
        split
        · exact ⟨[], by simpa using (dbUpdatePolicies_ok_frame h).1⟩
        · rename_i st2 h2
          obtain ⟨t, ht⟩ := dbInsertApprovalLog_logs_ex h2
          refine ⟨t, ?_⟩
          show st2.approval_logs = st.approval_logs ++ t
          rw [ht, (dbUpdatePolicies_ok_frame h).1]

/-- C9: the approval log is append-only.  Every service operation leaves the
    existing audit entries in place and at most appends new ones at the end;
    read operations such as getApprovalLogs do not touch the state at all. -/
theorem c9_append_only (st : DBState) (op : Op) :
    ∃ t, (runOp st op).approval_logs = st.approval_logs ++ t := by
  cases op with
  | create a d f => exact ⟨[], by rw [runOp, createPolicy_logs, List.append_nil]⟩
  | update a pid u => exact ⟨[], by rw [runOp, updatePolicy_logs, List.append_nil]⟩
  | submit a pid c => exact (by rw [runOp]; exact submitPolicy_logs st a pid c)
  | approval a pid ap d r c =>
    exact (by rw [runOp]; exact processApproval_logs st a pid ap d r c)

/-- C4: every successful status-changing operation appends exactly one audit
    entry, whose previous_status is the policy's status immediately before
    the operation and whose new_status is its status immediately after.
    Distinct policy ids (the table's primary-key invariant) are assumed.  A
    successful submitPolicy is impossible against the shipped schema, so the
    first conjunct holds vacuously; successful processApproval runs log the
    fetched prior status and the computed new status, which match the stored
    row before and after. -/
theorem c4_audit_entry (st : DBState) (hnd : (st.policies.map Policy.id).Nodup) :
    (∀ actor policyId creatorId row st2,
        submitPolicy st actor policyId creatorId = (.ok row, st2) →
        ∃ e, st2.approval_logs = st.approval_logs ++ [e] ∧
          some e.previous_status = statusOf st policyId ∧
          some e.new_status = statusOf st2 policyId)
  ∧ (∀ actor policyId approverId action role comments row st2,
        processApproval st actor policyId approverId action role comments
          = (.ok row, st2) →
        ∃ e, st2.approval_logs = st.approval_logs ++ [e] ∧
          some e.previous_status = statusOf st policyId ∧
          some e.new_status = statusOf st2 policyId) := by
  constructor
  · intro actor policyId creatorId row st2 h
    exact absurd h (submitPolicy_never_ok st actor policyId creatorId row st2)
  · intro actor policyId approverId action role comments row st2 h
    simp only [processApproval] at h
    split at h
    · simp at h
    · rename_i policy heq1
      split at h
      · simp at h
      · rename_i newStatus heq2
        split at h
        · simp at h
        · rename_i row1 st1 hup
          split at h
          · simp at h
          · rename_i st2x hins
            simp only [Prod.mk.injEq, Except.ok.injEq] at h
            obtain ⟨hrow, hst2⟩ := h
            subst hst2
            have hrowst : getPolicyRow st policyId = some policy := by
              unfold getPolicy at heq1
              split at heq1
              · exact heq1
              · simp at heq1
            obtain ⟨p, hp, -, hp1⟩ :=
              dbUpdatePolicies_ok_inv hnd hup (fun q => rfl)
            have hpol : getPolicyRow st2x policyId = getPolicyRow st1 policyId := by
              unfold dbInsertApprovalLog at hins
              split at hins
              · simp at hins
              · simp only [Except.ok.injEq] at hins
                rw [← hins]
                rfl
            refine ⟨⟨policyId, approverId, action.toAction, role, comments,
              policy.status, newStatus⟩, ?_, ?_, ?_⟩
            · rw [dbInsertApprovalLog_logs hins, (dbUpdatePolicies_ok_frame hup).1]
            · simp [statusOf, hrowst]
            · simp [statusOf, hpol, hp1]

theorem c4_audit_entry_witness :
    ∃ e, (processApproval sD 4 12 4 .approved "underwriter" "good risk").2.approval_logs
        = sD.approval_logs ++ [e] ∧
      some e.previous_status = statusOf sD 12 ∧
      some e.new_status
        = statusOf (processApproval sD 4 12 4 .approved "underwriter" "good risk").2 12 := by
  obtain ⟨row2, st2, hrun⟩ :
      ∃ row2 st2, processApproval sD 4 12 4 .approved "underwriter" "good risk"
        = (.ok row2, st2) := ⟨_, _, rfl⟩
  have h := (c4_audit_entry sD (by decide)).2 4 12 4 .approved "underwriter" "good risk"
    row2 st2 hrun
  rw [hrun]
  exact h

/-- A successful status update together with a matching workflow decision
    yields a successful processApproval run issued by the approver
    themselves, appending exactly the expected audit entry. -/
theorem processApproval_ok_of_update {st : DBState} {actor policyId : Nat}
    {p : Policy} {newStatus : PolicyStatus} {role comments : String} {action : Decision}
    {row : Policy} {st1 : DBState}
    (hprof : hasProfile st actor = true)
    (hp : getPolicyRow st policyId = some p)
    (hnewE : (match action with
      | Decision.rejected => Except.ok PolicyStatus.rejected
      | Decision.approved =>
        if p.status == PolicyStatus.pending_underwriter && role == "underwriter" then
          Except.ok PolicyStatus.pending_manager
        else if p.status == PolicyStatus.pending_manager && role == "manager" then
          Except.ok PolicyStatus.approved
        else Except.error "Invalid approval workflow state")
      = Except.ok newStatus)
    (hup : dbUpdatePolicies st actor policyId (fun q => { q with status := newStatus })
      = .ok (row, st1)) :
    processApproval st actor policyId actor action role comments
      = (.ok row, { st1 with approval_logs := st1.approval_logs ++
          [⟨policyId, actor, action.toAction, role, comments, p.status, newStatus⟩] }) := by
  unfold processApproval
  have hg : getPolicy st actor policyId = some p := by simp [getPolicy, hprof, hp]
  simp only [hg, hnewE, hup]
  simp [dbInsertApprovalLog, approvalLogsInsertCheck]

/-- C3: a reject whose comment is empty or whitespace-only is refused by the
    PolicyDetail handler before any service call, leaving the state
    untouched, while an approve with an empty comment in a matching pending
    state succeeds (the service never inspects the comment).  Distinct policy
    ids and a positive stored premium, both table invariants, are assumed for
    the success part. -/
theorem c3_reject_comment (st : DBState) :
    (∀ profileId profileRole policyId comments, jsTrim comments = "" →
        handleReject st profileId profileRole policyId comments
          = (.error "Please provide a reason for rejection", st))
  ∧ (∀ profileId profileRole policyId p,
        (st.policies.map Policy.id).Nodup →
        getPolicyRow st policyId = some p →
        roleOf st profileId = some profileRole →
        (0 : ℚ) < p.premium_amount →
        ((p.status = PolicyStatus.pending_underwriter ∧ profileRole = UserRole.underwriter)
          ∨ (p.status = PolicyStatus.pending_manager ∧ profileRole = UserRole.manager)) →
        ∃ row st2, handleApprove st profileId profileRole policyId ""
          = (.ok row, st2)) := by
  constructor
  · intro profileId profileRole policyId comments hc
    unfold handleReject
    simp [hc]
  · intro profileId profileRole policyId p hnd hp hrole hprem hvalid
    have hprof : hasProfile st profileId = true := by
      unfold hasProfile
      unfold roleOf at hrole
      cases hfind : st.user_profiles.find? (fun pr => pr.id == profileId) with
      | none => rw [hfind] at hrole; simp at hrole
      | some pr => simp [hfind]
    rcases hvalid with ⟨hs, hr⟩ | ⟨hs, hr⟩ <;> subst hr
    · have hU : policiesUpdateUsing st profileId p = true := by
        unfold policiesUpdateUsing hasRole
        rw [hrole]
        simp [hs]
      have hup : dbUpdatePolicies st profileId policyId
          (fun q => { q with status := PolicyStatus.pending_manager })
          = .ok ({ p with status := PolicyStatus.pending_manager },
            { st with policies := st.policies.map (fun q =>
              if q.id == policyId && policiesUpdateUsing st profileId q then
                { q with status := PolicyStatus.pending_manager } else q) }) :=
        dbUpdatePolicies_ok_of hnd hp hU (by simp [policiesUpdateCheck])
          (by simp only [policyRowConstraint, decide_eq_true_eq]; exact hprem)
      exact ⟨_, _, processApproval_ok_of_update hprof hp (by simp [hs, roleString]) hup⟩
    · have hU : policiesUpdateUsing st profileId p = true := by
        unfold policiesUpdateUsing hasRole
        rw [hrole]
        simp [hs]
      have hup : dbUpdatePolicies st profileId policyId
          (fun q => { q with status := PolicyStatus.approved })
          = .ok ({ p with status := PolicyStatus.approved },
            { st with policies := st.policies.map (fun q =>
              if q.id == policyId && policiesUpdateUsing st profileId q then
                { q with status := PolicyStatus.approved } else q) }) :=
        dbUpdatePolicies_ok_of hnd hp hU (by simp [policiesUpdateCheck])
          (by simp only [policyRowConstraint, decide_eq_true_eq]; exact hprem)
      exact ⟨_, _, processApproval_ok_of_update hprof hp (by simp [hs, roleString]) hup⟩

theorem c3_reject_comment_witness :
    handleReject sD 4 UserRole.underwriter 12 "   "
      = (.error "Please provide a reason for rejection", sD)
    ∧ ∃ row st2, handleApprove sD 4 UserRole.underwriter 12 "" = (.ok row, st2) :=
  ⟨(c3_reject_comment sD).1 4 .underwriter 12 "   " (by decide),
   (c3_reject_comment sD).2 4 .underwriter 12 pD (by decide) (by decide) (by decide)
     (by decide) (Or.inl ⟨by decide, rfl⟩)⟩

/-- C7 (amended): for every input accepted by the database, that is, one
    whose premium_amount is positive and which is issued by the acting user
    named as creator_id whose profile role is creator, createPolicy inserts
    the policy with status draft for either fraud outcome; the fraud flag
    determines only the fraud_check_passed and fraud_check_reason fields,
    every other inserted field is the input (or the generated number and id)
    independently of the flag. -/
theorem c7_create_inserts_draft (st : DBState) (actor : Nat) (d : NewPolicyData)
    (flag : Bool)
    (hown : d.creator_id = actor)
    (hrole : roleOf st actor = some UserRole.creator)
    (hprem : (0 : ℚ) < d.premium_amount) :
    ∃ row, createPolicy st actor d flag = (.ok row,
        { st with policies := st.policies ++ [row], nextId := st.nextId + 1 })
      ∧ row.status = PolicyStatus.draft
      ∧ row.customer_name = d.customer_name
      ∧ row.premium_amount = d.premium_amount
      ∧ row.product_type = d.product_type
      ∧ row.creator_id = d.creator_id
      ∧ row.policy_number = generatePolicyNumber st
      ∧ row.id = st.nextId
      ∧ row.fraud_check_passed
          = (performFraudCheck flag d.customer_name d.premium_amount).passed
      ∧ row.fraud_check_reason
          = (performFraudCheck flag d.customer_name d.premium_amount).reason := by
  have hins : policiesInsertCheck st actor
      ⟨st.nextId, generatePolicyNumber st, d.customer_name, d.premium_amount,
        d.product_type, PolicyStatus.draft,
        (performFraudCheck flag d.customer_name d.premium_amount).passed,
        (performFraudCheck flag d.customer_name d.premium_amount).reason,
        d.creator_id⟩ = true := by
    unfold policiesInsertCheck hasRole
    rw [hrole]
    simp [hown]
  refine ⟨⟨st.nextId, generatePolicyNumber st, d.customer_name, d.premium_amount,
      d.product_type, PolicyStatus.draft,
      (performFraudCheck flag d.customer_name d.premium_amount).passed,
      (performFraudCheck flag d.customer_name d.premium_amount).reason,
      d.creator_id⟩, ?_, rfl, rfl, rfl, rfl, rfl, rfl, rfl, rfl, rfl⟩
  unfold createPolicy dbInsertPolicy
  simp only [hins, Bool.not_true, Bool.false_eq_true, if_false, policyRowConstraint]
  rw [if_neg (by simp [hprem])]

/-- C7 counterexample: the claim quantifies over every input, but an input
    whose premium_amount is 0 violates the table's premium check constraint,
    and an insert issued by an underwriter is refused by the INSERT policy;
    in both cases createPolicy throws and no record is inserted, for either
    fraud outcome. -/
theorem c7_counterexample :
    createPolicy sC 1 ⟨"Bob Ray", 0, "Auto Insurance", 1⟩ false
      = (.error DbError.checkViolation.message, sC)
    ∧ createPolicy sC 5 ⟨"Bob Ray", 10, "Auto Insurance", 5⟩ true
      = (.error DbError.rlsViolation.message, sC) := by
  decide

theorem c7_create_inserts_draft_witness :
    ∃ row, createPolicy sC 1 ⟨"Ann Lee", 250, "Home Insurance", 1⟩ false = (.ok row,
        { sC with policies := sC.policies ++ [row], nextId := sC.nextId + 1 })
      ∧ row.status = PolicyStatus.draft
      ∧ row.customer_name = "Ann Lee"
      ∧ row.premium_amount = 250
      ∧ row.product_type = "Home Insurance"
      ∧ row.creator_id = 1
      ∧ row.policy_number = generatePolicyNumber sC
      ∧ row.id = sC.nextId
      ∧ row.fraud_check_passed = (performFraudCheck false "Ann Lee" 250).passed
      ∧ row.fraud_check_reason = (performFraudCheck false "Ann Lee" 250).reason :=
  c7_create_inserts_draft sC 1 ⟨"Ann Lee", 250, "Home Insurance", 1⟩ false
    rfl (by decide) (by decide)
